import Mathlib

/-!
Verification of the matmeta common-metadata payload module
(`matmeta/payload_metaclass.py`).

The Python module is embedded shallowly:

* Python values stored in records (dicts, lists, strings, ints, `None`)
  become the inductive type `Value`; a Python dict is an association list
  `List (String × Value)` with first-occurrence lookup (Python dicts have
  unique keys, so this is faithful).
* Requirement schemas (the nested dicts returned by the
  `_*_metadata_requirements` functions) become the inductive type `ReqVal`.
* Raised exceptions become `Except String` results; the string carries the
  exception message (for `Exception("Missing input fields. ...")`) or the
  exception class name (`"KeyError"`, `"TypeError"`, `"AttributeError"`)
  for errors the interpreter raises.
* Where CPython iterates a `set` (whose iteration order is unspecified),
  the embedding iterates the corresponding association list in source
  order; every theorem below is insensitive to that order (the sets
  involved either have at most one element or are only tested for
  membership).
-/

/-- Python values as stored in a common record: `None`, strings, ints,
lists and dicts.  A dict is an association list with unique keys; lookup
takes the first occurrence. -/
inductive Value where
  | vnone : Value
  | vstr : String → Value
  | vint : Int → Value
  | vlist : List Value → Value
  | vdict : List (String × Value) → Value

/-- A Python dict of record fields. -/
abbrev Record := List (String × Value)

/-- Requirement-schema values: a leaf type tag (`'string'`, `'uri (string)'`,
...), a list of sub-schemas (`[ {...} ]`), or a nested schema dict. -/
inductive ReqVal where
  | rstr : String → ReqVal
  | rlist : List ReqVal → ReqVal
  | rdict : List (String × ReqVal) → ReqVal

/-- Python `key in d` for a dict modelled as an association list. -/
def hasKeyV (d : Record) (k : String) : Bool :=
  (List.lookup k d).isSome

/-- Embeds `_citrine_metadata_requirements` (payload_metaclass.py line 19):
no metadata is required. -/
def citrineRequirements : List (String × ReqVal) := []

/-- Embeds `_materials_commons_metadata_requirements`
(payload_metaclass.py line 23). -/
def materialsCommonsRequirements : List (String × ReqVal) :=
  [("source", ReqVal.rdict [("name", ReqVal.rstr "string")]),
   ("description", ReqVal.rstr "string")]

/-- Embeds `_materials_data_facility_metadata_requirements`
(payload_metaclass.py line 32). -/
def materialsDataFacilityRequirements : List (String × ReqVal) :=
  [("title", ReqVal.rstr "string"),
   ("source", ReqVal.rdict [("name", ReqVal.rstr "string")]),
   ("data_contacts", ReqVal.rlist
     [ReqVal.rdict [("given_name", ReqVal.rstr "string"),
                    ("family_name", ReqVal.rstr "string"),
                    ("email", ReqVal.rstr "string")]]),
   ("data_contributors", ReqVal.rlist
     [ReqVal.rdict [("given_name", ReqVal.rstr "string"),
                    ("family_name", ReqVal.rstr "string"),
                    ("email", ReqVal.rstr "string")]]),
   ("links", ReqVal.rdict [("landing_page", ReqVal.rstr "uri (string)")])]

/-- The literal `available_services` set of `get_common_payload_template`
(line 167), in source order. -/
def availableServices : List String :=
  ["citrine", "materials_commons", "materials_data_facility"]

/-- The `eval('_%s_metadata_requirements()' % service)` dispatch of
`get_common_payload_template` (line 177), written as a static match.
`get_common_payload_template` only evaluates it for members of
`availableServices`, so the default arm is unreachable there. -/
def serviceRequirements : String → List (String × ReqVal)
  | "citrine" => citrineRequirements
  | "materials_commons" => materialsCommonsRequirements
  | "materials_data_facility" => materialsDataFacilityRequirements
  | _ => []

/-- Embeds the service-selection step of `get_common_payload_template`
(lines 168-173): `None` means all services; a request is filtered to the
known services, and if nothing remains, all services are used. -/
def selectServices : Option (List String) → List String
  | none => availableServices
  | some ss =>
      let f := ss.filter (fun s => availableServices.contains s)
      if f.isEmpty then availableServices else f

/-- One step of the merge loop body (lines 179-181):
`if not key in combined_requirements: combined_requirements[key] = ...`. -/
def addKV (acc : List (String × ReqVal)) (kv : String × ReqVal) :
    List (String × ReqVal) :=
  if (List.lookup kv.1 acc).isSome then acc else acc ++ [kv]

/-- The inner loop of `get_common_payload_template` over one service's
requirement dict (lines 179-181). -/
def addService (acc : List (String × ReqVal)) (s : String) :
    List (String × ReqVal) :=
  (serviceRequirements s).foldl addKV acc

/-- The `combined_requirements` accumulation of
`get_common_payload_template` (lines 174-181). -/
def combinedRequirements (svcs : List String) : List (String × ReqVal) :=
  svcs.foldl addService []

/-- The `'required_fields'` entry of the dictionary returned by
`get_common_payload_template(services)` (line 269). -/
def requiredFieldsTemplate (services : Option (List String)) :
    List (String × ReqVal) :=
  combinedRequirements (selectServices services)

/-- The keys of the `'all_fields'` dict returned by
`get_common_payload_template` (lines 183-267), in literal order. -/
def allFieldsKeys : List String :=
  ["title", "source", "data_contacts", "data_contributors", "links",
   "authors", "licenses", "citations", "repository", "collection",
   "tags", "description", "raw", "year", "composition"]

/-- The `new_keypath` computation of `_validate_inputs` (line 82):
`key if not keypath else '%s.%s' % (keypath, key)`. -/
def extendPath (kp : Option String) (k : String) : String :=
  match kp with
  | none => k
  | some s => if s = "" then k else s ++ "." ++ k

/-- The `prefix` computation of `_validate_inputs` (line 75):
`'%s.' if keypath else ''`.  Note that this is the literal three-character
string `%s.` — the source never interpolates `keypath` into it. -/
def msgPfx (kp : Option String) : String :=
  match kp with
  | none => ""
  | some s => if s = "" then "" else "%s."

/-- Python `', '.join(...)`. -/
def pyJoin (sep : String) : List String → String
  | [] => ""
  | [x] => x
  | x :: rest => x ++ sep ++ pyJoin sep rest

/-- The exception message raised by `_validate_inputs` (lines 75-77).  The
source renders `{'%s%s' % (prefix, key) for key in required_keys}`, i.e.
every required key of the current level (not only the missing ones),
prefixed by the literal `prefix` string.  The source joins a set (order
unspecified, duplicates collapsed); the embedding joins in schema order,
which is the same string whenever at most one key is rendered. -/
def missingMsg (entries : List (String × ReqVal)) (kp : Option String) :
    String :=
  "Missing input fields.  Expected " ++
    pyJoin ", " (entries.map (fun kv => msgPfx kp ++ kv.1)) ++ "."

mutual

/-- The recursive loop of `_validate_inputs` (lines 78-87): for each
required key whose schema value is a dict, recurse into the record's
value at that key with the keypath extended.  The source iterates a set
of keys; the embedding iterates the schema in source order (an exception
aborts the loop either way).  Indexing a key that is absent would be a
`KeyError` (unreachable: the presence check has already passed), and
recursing into a non-dict value raises when `.keys()` is accessed,
modelled as `"AttributeError"`. -/
def validateEach (arec : Record) :
    List (String × ReqVal) → Option String → Except String Unit
  | [], _ => Except.ok ()
  | (k, ReqVal.rdict sub) :: rest, kp =>
      (match List.lookup k arec with
       | some (Value.vdict subA) => validateInputs (Value.vdict subA) sub
           (some (extendPath kp k))
       | some _ => Except.error "AttributeError"
       | none => Except.error "KeyError").bind
        (fun _ => validateEach arec rest kp)
  | (_, ReqVal.rstr _) :: rest, kp => validateEach arec rest kp
  | (_, ReqVal.rlist _) :: rest, kp => validateEach arec rest kp

/-- Embeds `_validate_inputs` (payload_metaclass.py lines 58-87).  The
entry check is `actual_keys.intersection(required_keys) != required_keys`,
i.e. some required key is absent; in that case the function raises with
`missingMsg`.  Otherwise it loops over the required keys, recursing into
dict-valued requirements only. -/
def validateInputs (actual : Value) (required : List (String × ReqVal))
    (keypath : Option String) : Except String Unit :=
  match actual with
  | Value.vdict arec =>
      if required.all (fun kv => hasKeyV arec kv.1) then
        validateEach arec required keypath
      else
        Except.error (missingMsg required keypath)
  | _ => Except.error "AttributeError"

end

theorem exceptBind_ok {a b : Type} (x : a) (f : a → Except String b) :
    Except.bind (Except.ok x) f = f x := rfl

theorem exceptBind_error {a b : Type} (e : String)
    (f : a → Except String b) :
    Except.bind (Except.error e) f = Except.error e := rfl

theorem validateEach_nil (arec : Record) (kp : Option String) :
    validateEach arec [] kp = Except.ok () := by
  rw [validateEach]

theorem validateEach_rstr (arec : Record) (k s : String)
    (rest : List (String × ReqVal)) (kp : Option String) :
    validateEach arec ((k, ReqVal.rstr s) :: rest) kp
      = validateEach arec rest kp := by
  rw [validateEach]

theorem validateEach_rlist (arec : Record) (k : String) (l : List ReqVal)
    (rest : List (String × ReqVal)) (kp : Option String) :
    validateEach arec ((k, ReqVal.rlist l) :: rest) kp
      = validateEach arec rest kp := by
  rw [validateEach]

theorem validateEach_rdict (arec : Record) (k : String)
    (sub rest : List (String × ReqVal)) (kp : Option String)
    (subA : Record)
    (hlook : List.lookup k arec = some (Value.vdict subA)) :
    validateEach arec ((k, ReqVal.rdict sub) :: rest) kp
      = (validateInputs (Value.vdict subA) sub
          (some (extendPath kp k))).bind
          (fun _ => validateEach arec rest kp) := by
  rw [validateEach, hlook]

theorem validateEach_rdict_ok (arec : Record) (k : String)
    (sub rest : List (String × ReqVal)) (kp : Option String)
    (subA : Record)
    (hlook : List.lookup k arec = some (Value.vdict subA))
    (hsub : validateInputs (Value.vdict subA) sub
      (some (extendPath kp k)) = Except.ok ()) :
    validateEach arec ((k, ReqVal.rdict sub) :: rest) kp
      = validateEach arec rest kp := by
  rw [validateEach_rdict arec k sub rest kp subA hlook, hsub, exceptBind_ok]

theorem validateInputs_all_true (arec : Record)
    (req : List (String × ReqVal)) (kp : Option String)
    (hall : req.all (fun kv => hasKeyV arec kv.1) = true) :
    validateInputs (Value.vdict arec) req kp = validateEach arec req kp := by
  rw [validateInputs, hall]
  simp

theorem validateInputs_all_false (arec : Record)
    (req : List (String × ReqVal)) (kp : Option String)
    (hall : req.all (fun kv => hasKeyV arec kv.1) = false) :
    validateInputs (Value.vdict arec) req kp
      = Except.error (missingMsg req kp) := by
  rw [validateInputs, hall]
  simp


/-- Looks up a key that the source then uses as a `str`:
a missing key is a `KeyError`, a non-string value makes the subsequent
string concatenation raise, modelled as `"TypeError"`. -/
def getStrE (c : Record) (k : String) : Except String String :=
  match List.lookup k c with
  | some (Value.vstr s) => Except.ok s
  | some _ => Except.error "TypeError"
  | none => Except.error "KeyError"

/-- Python `str(...)` as used on `citation['year']` (line 130).  Strings
and ints render as themselves; container and `None` renderings are chosen
representative (no theorem below depends on them). -/
def pyStr : Value → String
  | Value.vstr s => s
  | Value.vint n => toString n
  | Value.vnone => "None"
  | Value.vlist _ => "<list>"
  | Value.vdict _ => "<dict>"

/-- Python `needle in hay` for two strings: the substring test, scanning
every suffix of `hay` for `needle` as a leading segment. -/
def pyInStrAux (needle : List Char) : List Char → Bool
  | [] => needle.isEmpty
  | c :: rest => needle.isPrefixOf (c :: rest) || pyInStrAux needle rest

/-- Python substring membership `needle in hay` on strings. -/
def pyInStr (needle hay : String) : Bool :=
  pyInStrAux needle.toList hay.toList

/-- The author loop of `_citation_to_string` (lines 120-127): a dict
author without a `family_name` key is skipped; otherwise `family` or
`"family given"` is collected.  Python `in` is shape-dependent for the
other author values: on a string it is a substring test — the author is
silently skipped unless `family_name` occurs as a substring, in which
case the subsequent string indexing raises; on a list it is an equality
scan — the author is skipped unless some element equals the string
`"family_name"`, in which case the indexing raises; on `None` or an int
the membership test itself raises. -/
def authorNames : List Value → Except String (List String)
  | [] => Except.ok []
  | Value.vdict a :: rest =>
      if hasKeyV a "family_name" then do
        let fam ← getStrE a "family_name"
        let nm ←
          if hasKeyV a "given_name" then do
            let giv ← getStrE a "given_name"
            pure (fam ++ " " ++ giv)
          else
            pure fam
        let others ← authorNames rest
        pure (nm :: others)
      else
        authorNames rest
  | Value.vstr s :: rest =>
      if pyInStr "family_name" s then Except.error "TypeError"
      else authorNames rest
  | Value.vlist l :: rest =>
      if l.any (fun v => match v with
          | Value.vstr s => s == "family_name"
          | _ => false) then
        Except.error "TypeError"
      else
        authorNames rest
  | _ :: _ => Except.error "TypeError"

/-- The authors/year/title portion of `_citation_to_string`
(lines 119-132), appended in source order.  Iterating a string `authors`
value yields single characters, every one of which fails the
`family_name` membership test and is skipped, so the join is empty;
iterating a dict yields its keys, skipped the same way unless a key
contains `family_name` as a substring (then the string indexing raises);
iterating `None` or an int raises at once. -/
def headerPart (c : Record) : Except String String := do
  let s1 ←
    if hasKeyV c "authors" then
      match List.lookup "authors" c with
      | some (Value.vlist l) => do
          let ns ← authorNames l
          pure (pyJoin ", " ns ++ ". ")
      | some (Value.vstr _) =>
          pure (pyJoin ", " [] ++ ". ")
      | some (Value.vdict d) =>
          if d.any (fun p => pyInStr "family_name" p.1) then
            Except.error "TypeError"
          else
            pure (pyJoin ", " [] ++ ". ")
      | _ => Except.error "TypeError"
    else
      pure ""
  let s2 ←
    if hasKeyV c "year" then
      match List.lookup "year" c with
      | some v => pure (pyStr v ++ ". ")
      | none => Except.error "KeyError"
    else
      pure ""
  let s3 ←
    if hasKeyV c "title" then do
      let t ← getStrE c "title"
      pure (t ++ ". ")
    else
      pure ""
  pure (s1 ++ s2 ++ s3)

/-- The journal branch of `_citation_to_string` (lines 134-141): journal
name always, then — only when `volume` is present — the volume, an
optional `(issue)` and an optional `:page_location. `. -/
def journalPart (c : Record) : Except String String := do
  let j ← getStrE c "journal"
  let rest ←
    if hasKeyV c "volume" then do
      let v ← getStrE c "volume"
      let si ←
        if hasKeyV c "issue" then do
          let i ← getStrE c "issue"
          pure ("(" ++ i ++ ")")
        else
          pure ""
      let sp ←
        if hasKeyV c "page_location" then do
          let p ← getStrE c "page_location"
          pure (":" ++ p ++ ". ")
        else
          pure ""
      pure (v ++ si ++ sp)
    else
      pure ""
  pure (j ++ ". " ++ rest)

/-- The book branch of `_citation_to_string` (lines 142-155): edition,
publication location (with `': publisher. '` when both are present, or
the publisher alone), extent and notes. -/
def bookPart (c : Record) : Except String String := do
  let s1 ←
    if hasKeyV c "edition" then do
      let e ← getStrE c "edition"
      pure (e ++ ". ")
    else
      pure ""
  let s2 ←
    if hasKeyV c "publication_location" then do
      let pl ← getStrE c "publication_location"
      if hasKeyV c "publisher" then do
        let pb ← getStrE c "publisher"
        pure (pl ++ ": " ++ pb ++ ". ")
      else
        pure pl
    else
      if hasKeyV c "publisher" then do
        let pb ← getStrE c "publisher"
        pure (pb ++ ". ")
      else
        pure ""
  let s3 ←
    if hasKeyV c "extent" then do
      let e ← getStrE c "extent"
      pure (e ++ ". ")
    else
      pure ""
  let s4 ←
    if hasKeyV c "notes" then do
      let n ← getStrE c "notes"
      pure (n ++ ". ")
    else
      pure ""
  pure (s1 ++ s2 ++ s3 ++ s4)

/-- Python `str.strip()`: leading and trailing whitespace removed. -/
def pyStrip (s : String) : String :=
  String.mk (((s.toList.dropWhile Char.isWhitespace).reverse.dropWhile
    Char.isWhitespace).reverse)

/-- Embeds `_citation_to_string` (payload_metaclass.py lines 90-157):
the header (authors, year, title), then the journal branch when
`'journal' in citation` and the book branch otherwise, with the
accumulated string stripped of surrounding whitespace at the end. -/
def citationToString (c : Record) : Except String String := do
  let h ← headerPart c
  let b ← if hasKeyV c "journal" then journalPart c else bookPart c
  pure (pyStrip (h ++ b))

/-- Embeds `PublishablePayload.__init__` (payload_metaclass.py lines
274-284): the payload dict receives, in `all_fields` key order, exactly
the caller-supplied entries whose key is a known field.  (The
`self.__dict__ = self` aliasing makes attribute access equal to item
access; the embedding therefore uses a single dict.) -/
def publishableInit (kwargs : Record) : Record :=
  allFieldsKeys.filterMap
    (fun k => (List.lookup k kwargs).map (fun v => (k, v)))

/-- Attribute access `self.key` on the payload (equivalent to
`self[key]` through the `self.__dict__ = self` aliasing); a missing
attribute raises, modelled as `"AttributeError"`. -/
def getAttr (payload : Record) (k : String) : Except String Value :=
  match List.lookup k payload with
  | some v => Except.ok v
  | none => Except.error "AttributeError"

/-- Embeds `MCPayload(**kwargs).metapayload` (payload_metaclass.py lines
507-520): validate against the Materials Commons requirements, build the
payload dict, then return `{'name': self['source']['name'],
'description': self['description']}`. -/
def mcProject (kwargs : Record) : Except String Record := do
  let _ ← validateInputs (Value.vdict kwargs)
      (requiredFieldsTemplate (some ["materials_commons"])) none
  let payload := publishableInit kwargs
  match List.lookup "source" payload with
  | some (Value.vdict src) =>
      match List.lookup "name" src with
      | some nameVal =>
          match List.lookup "description" payload with
          | some descVal =>
              Except.ok [("name", nameVal), ("description", descVal)]
          | none => Except.error "KeyError"
      | none => Except.error "KeyError"
  | some _ => Except.error "TypeError"
  | none => Except.error "KeyError"

/-- Python `d[k] = v` on a dict: updates the value in place when the key
exists, otherwise appends the new entry. -/
def pySet (d : Record) (k : String) (v : Value) : Record :=
  if hasKeyV d k then
    d.map (fun p => if p.1 == k then (p.1, v) else p)
  else
    d ++ [(k, v)]

/-- One element of an iterable handed to `dict(...)`, read as a
key-value pair: a two-element list `[key, value]` with a string key, a
two-character string (its characters), or a two-entry dict (its two
keys).  A pair of the wrong length raises `ValueError`, a non-iterable
element raises `TypeError`, and a pair whose key is not a string builds
a non-string-keyed dict, which lies outside this value model (records
are keyed by strings throughout) and is mapped to an error. -/
def pairFromElement : Value → Except String (String × Value)
  | Value.vlist [Value.vstr k, v] => Except.ok (k, v)
  | Value.vlist [_, _] => Except.error "TypeError"
  | Value.vlist _ => Except.error "ValueError"
  | Value.vstr s =>
      match s.toList with
      | [c1, c2] => Except.ok (String.mk [c1], Value.vstr (String.mk [c2]))
      | _ => Except.error "ValueError"
  | Value.vdict [(k1, _), (k2, _)] => Except.ok (k1, Value.vstr k2)
  | Value.vdict _ => Except.error "ValueError"
  | _ => Except.error "TypeError"

/-- Builds a dict from an iterable of key-value pairs the way
`dict(...)` does: left to right, a later pair overwriting an earlier
key. -/
def dictFromPairs : List Value → Record → Except String Record
  | [], acc => Except.ok acc
  | e :: rest, acc => do
      let p ← pairFromElement e
      dictFromPairs rest (pySet acc p.1 p.2)

/-- Python `dict(x)`: copies a mapping, accepts an iterable of key-value
pairs (a list of pairs, or a string of two-character "pairs" — the empty
string gives the empty dict, any other string has one-character elements
and raises), and raises `TypeError` for non-iterables such as `None` or
an int.  Used for `[dict(data_contributor) for data_contributor in
self.data_contributors]` (line 461). -/
def dictCopyE : Value → Except String Value
  | Value.vdict d => Except.ok (Value.vdict d)
  | Value.vstr s =>
      if s = "" then Except.ok (Value.vdict [])
      else Except.error "ValueError"
  | Value.vlist l => do
      let d ← dictFromPairs l []
      Except.ok (Value.vdict d)
  | _ => Except.error "TypeError"

/-- The `data_contributor` list comprehension of `MDFPayload.metapayload`
(line 461). -/
def mdfContribList : List Value → Except String (List Value)
  | [] => Except.ok []
  | v :: rest => do
      let c ← dictCopyE v
      let cs ← mdfContribList rest
      Except.ok (c :: cs)

/-- The membership probes `_citation_to_string` performs whose success
leads to an indexing of the citation: authors, year and title always,
then journal, and — only when the journal probe fails — the book
fields.  (volume, issue and page_location are probed only inside the
journal branch, which is reached only after `citation['journal']` has
already raised for a non-dict citation.) -/
def strCitationProbeKeys : List String :=
  ["authors", "year", "title", "journal", "edition",
   "publication_location", "publisher", "extent", "notes"]

/-- The `citation` list comprehension of `MDFPayload.metapayload`
(lines 488-491): each citation dict is rendered by
`_citation_to_string`.  For a string citation the membership tests are
substring tests: if no probed key occurs in it, every test fails and
the formatter returns the empty (stripped) string; a hit makes the
subsequent string indexing raise.  For a list citation the tests are
equality scans for the probed key strings.  `None` and int citations
raise at the first membership test. -/
def citationStrings : List Value → Except String (List Value)
  | [] => Except.ok []
  | Value.vdict c :: rest => do
      let s ← citationToString c
      let ss ← citationStrings rest
      Except.ok (Value.vstr s :: ss)
  | Value.vstr s :: rest =>
      if strCitationProbeKeys.any (fun k => pyInStr k s) then
        Except.error "TypeError"
      else do
        let ss ← citationStrings rest
        Except.ok (Value.vstr "" :: ss)
  | Value.vlist l :: rest =>
      if l.any (fun v => match v with
          | Value.vstr s2 => strCitationProbeKeys.contains s2
          | _ => false) then
        Except.error "TypeError"
      else do
        let ss ← citationStrings rest
        Except.ok (Value.vstr "" :: ss)
  | _ :: _ => Except.error "TypeError"

/-- The optional keys of `MDFPayload.metapayload` (lines 474-481):
`set(all_fields) - set(required_fields for materials_data_facility)`.
The source iterates this set in unspecified order; the embedding uses
`all_fields` order. -/
def mdfOptionalKeys : List String :=
  allFieldsKeys.filter
    (fun k =>
      !(((requiredFieldsTemplate
            (some ["materials_data_facility"])).map Prod.fst).contains k))

/-- Embeds `MDFPayload.metapayload` (payload_metaclass.py lines 452-493):
the fixed `mdf` block, then every optional key that is present and not
`None` (with `citations` excluded from that loop), then — when
`citations` is present — a `citation` key holding the formatted strings;
finally wrapped as `{'mdf': ..., 'dc': {}}`. -/
def mdfMetapayload (payload : Record) : Except String Value := do
  let title ← getAttr payload "title"
  let source ← getAttr payload "source"
  let srcName ←
    match source with
    | Value.vdict s =>
        match List.lookup "name" s with
        | some v => Except.ok v
        | none => Except.error "KeyError"
    | _ => Except.error "TypeError"
  let links ← getAttr payload "links"
  let contacts ← getAttr payload "data_contacts"
  let contribsV ← getAttr payload "data_contributors"
  let contribs ←
    match contribsV with
    | Value.vlist l => mdfContribList l
    | _ => Except.error "TypeError"
  let base : Record :=
    [("title", title),
     ("acl", Value.vlist [Value.vstr "public"]),
     ("source_name", srcName),
     ("links", links),
     ("data_contact", contacts),
     ("data_contributor", Value.vlist contribs)]
  let withOpt := mdfOptionalKeys.foldl
    (fun acc k =>
      if k == "citations" then acc
      else
        match List.lookup k payload with
        | some Value.vnone => acc
        | some v => acc ++ [(k, v)]
        | none => acc) base
  let mdfEntries ←
    if hasKeyV payload "citations" then
      match List.lookup "citations" payload with
      | some (Value.vlist cs) => do
          let ss ← citationStrings cs
          Except.ok (withOpt ++ [("citation", Value.vlist ss)])
      | _ => Except.error "TypeError"
    else
      Except.ok withOpt
  Except.ok (Value.vdict [("mdf", Value.vdict mdfEntries),
                          ("dc", Value.vdict [])])

/-- Embeds `MDFPayload(**kwargs).metapayload` (lines 444-493): validate
against the Materials Data Facility requirements, build the payload dict,
then compute the metapayload. -/
def mdfProject (kwargs : Record) : Except String Value := do
  let _ ← validateInputs (Value.vdict kwargs)
      (requiredFieldsTemplate (some ["materials_data_facility"])) none
  mdfMetapayload (publishableInit kwargs)

/-- The constructor-parameter names of `pypif.obj.License`, the target
shape of `CITPayload._add_licenses` (line 383).  `pobj.License(**license)`
raises for any keyword outside this set; the spec describes such a
license as one that "cannot be coerced into the target shape". -/
def citrineLicenseFields : List String :=
  ["name", "description", "url", "tags"]

/-- The conversion attempted for one license element inside the `try` of
`CITPayload._add_licenses` (lines 381-386): `pobj.License(**license)`.
A non-dict cannot be splatted and an unknown keyword raises; both are
modelled as `"TypeError"`.  A successful conversion carries the license
fields through unchanged. -/
def toCitrineLicense : Value → Except String Record
  | Value.vdict entries =>
      if entries.all (fun p => citrineLicenseFields.contains p.1) then
        Except.ok entries
      else
        Except.error "TypeError"
  | _ => Except.error "TypeError"

/-- Embeds the loop of `CITPayload._add_licenses` (lines 379-388): each
element is converted inside `try`; on exception the element is skipped
(the exception is printed, which has no effect on the result). -/
def citAddLicenses : List Value → List Record
  | [] => []
  | l :: rest =>
      match toCitrineLicense l with
      | Except.ok cl => cl :: citAddLicenses rest
      | Except.error _ => citAddLicenses rest

/-- The `citrine_citation_fields` allow-set of `CITPayload._add_citations`
(lines 395-399), including the source's `'referenes'` typo. -/
def citrineCitationFields : List String :=
  ["doi", "isbn", "issn", "url", "title", "publisher", "journal",
   "volume", "issue", "year", "figure", "table", "pages", "authors",
   "editors", "affiliations", "acknowledgements", "referenes", "tags"]

/-- The `citrine_author_fields` allow-set of `CITPayload._add_citations`
(lines 402-404). -/
def citrineAuthorFields : List String :=
  ["title", "given", "family", "suffix", "tags"]

/-- The in-place "fix name keys" step of `CITPayload._add_citations`
(lines 414-418): `author['given'] = author['given_name']` and
`author['family'] = author['family_name']`, applied to the author dict
itself.  Because `filtered_citation_data['authors']` is the very list
object stored in the caller's citation (a dict comprehension copies
references, not values), this mutation lands in the Common Record. -/
def fixAuthor (a : Record) : Record :=
  let a1 :=
    match List.lookup "given_name" a with
    | some v => pySet a "given" v
    | none => a
  match List.lookup "family_name" a1 with
  | some v => pySet a1 "family" v
  | none => a1

/-- A `pypif.obj.Reference` as assembled by `_add_citations`: the
filtered citation fields (minus `authors`, which the source overwrites
with the processed list on line 427) and the processed author `Name`
dicts. -/
structure CitrineReference where
  fields : Record
  authors : List Record

/-- The author loop of `CITPayload._add_citations` (lines 412-425): a
dict author is mutated in place by `fixAuthor`, then filtered to the
`Name` allow-set.  Returns each author's post-loop state alongside the
kwargs passed to `pobj.Name`.  Python `in` makes the other shapes
behave as follows: a string author raises only when `given_name` or
`family_name` occurs in it as a substring (the string indexing then
raises); otherwise its one-character elements all miss the allow-set, so
`Name()` gets empty kwargs and nothing is mutated.  A list author raises
when it holds the string `"given_name"` or `"family_name"` (indexing),
or — at the name-filter comprehension, whose `key in
citrine_author_fields` hashes each element — when it holds an unhashable
element (a list or dict) or a string from the allow-set (indexing);
otherwise it too yields empty kwargs unchanged.  `None` and int authors
raise at the first membership test. -/
def processAuthors : List Value → Except String (List (Value × Record))
  | [] => Except.ok []
  | Value.vdict a :: rest => do
      let m := fixAuthor a
      let filtered := m.filter (fun p => citrineAuthorFields.contains p.1)
      let others ← processAuthors rest
      Except.ok ((Value.vdict m, filtered) :: others)
  | Value.vstr s :: rest =>
      if pyInStr "given_name" s || pyInStr "family_name" s then
        Except.error "TypeError"
      else do
        let others ← processAuthors rest
        Except.ok ((Value.vstr s, []) :: others)
  | Value.vlist l :: rest =>
      if l.any (fun v => match v with
          | Value.vstr s2 => s2 == "given_name" || s2 == "family_name"
          | _ => false) then
        Except.error "TypeError"
      else if l.any (fun v => match v with
          | Value.vdict _ => true
          | Value.vlist _ => true
          | Value.vstr s2 => citrineAuthorFields.contains s2
          | _ => false) then
        Except.error "TypeError"
      else do
        let others ← processAuthors rest
        Except.ok ((Value.vlist l, []) :: others)
  | _ :: _ => Except.error "TypeError"

/-- One iteration of the citation loop of `CITPayload._add_citations`
(lines 406-428).  Returns the assembled reference together with the
citation's own state after the loop body ran — for a dict citation with
a list of dict authors, the author dicts have been mutated in place by
the "fix name keys" step.  There is no `try`/`except` in this loop: any
error raised here propagates.  Non-dict citations follow Python: a
string citation iterates as single characters, none of which is in the
citation allow-set, so the filter is empty and `Reference()` succeeds; a
list citation raises at `key in citrine_citation_fields` (a set lookup,
which hashes) when it holds an unhashable element, or at `citation[key]`
when it holds a string from the allow-set, and otherwise filters to
empty; `None` and int citations raise when iterated.  A present
`authors` value that is not a list also follows Python: a string value
iterates as characters (empty `Name` kwargs each, nothing mutated, no
error); a dict value iterates as its keys, raising only if a key has
`given_name` or `family_name` as a substring; `None` and int values
raise when iterated. -/
def processCitation : Value → Except String (CitrineReference × Value)
  | Value.vdict entries =>
      let filtered := entries.filter
        (fun p => citrineCitationFields.contains p.1)
      if hasKeyV filtered "authors" then
        match List.lookup "authors" filtered with
        | some (Value.vlist authors) => do
            let processed ← processAuthors authors
            let mutated := processed.map (fun pr => pr.1)
            let names := processed.map (fun pr => pr.2)
            Except.ok
              (⟨filtered.filter (fun p => p.1 != "authors"), names⟩,
               Value.vdict (entries.map
                 (fun p =>
                   if p.1 == "authors" then (p.1, Value.vlist mutated)
                   else p)))
        | some (Value.vstr s) =>
            Except.ok
              (⟨filtered.filter (fun p => p.1 != "authors"),
                s.toList.map (fun _ => [])⟩, Value.vdict entries)
        | some (Value.vdict d) =>
            if d.any (fun p => pyInStr "given_name" p.1
                || pyInStr "family_name" p.1) then
              Except.error "TypeError"
            else
              Except.ok
                (⟨filtered.filter (fun p => p.1 != "authors"),
                  d.map (fun _ => [])⟩, Value.vdict entries)
        | some _ => Except.error "TypeError"
        | none => Except.error "KeyError"
      else
        Except.ok (⟨filtered, []⟩, Value.vdict entries)
  | Value.vstr s => Except.ok (⟨[], []⟩, Value.vstr s)
  | Value.vlist l =>
      if l.any (fun v => match v with
          | Value.vdict _ => true
          | Value.vlist _ => true
          | Value.vstr s2 => citrineCitationFields.contains s2
          | _ => false) then
        Except.error "TypeError"
      else
        Except.ok (⟨[], []⟩, Value.vlist l)
  | _ => Except.error "TypeError"

/-- Embeds the loop of `CITPayload._add_citations` (lines 405-429),
threading through each citation's post-mutation state.  An exception
raised for any element aborts the whole loop (there is no handler). -/
def citAddCitations :
    List Value → Except String (List CitrineReference × List Value)
  | [] => Except.ok ([], [])
  | c :: rest => do
      let (r, c') ← processCitation c
      let (rs, cs') ← citAddCitations rest
      Except.ok (r :: rs, c' :: cs')

theorem except_ok_bind {α β : Type} (a : α) (f : α → Except String β) :
    ((Except.ok a : Except String α) >>= f) = f a := rfl

theorem except_error_bind {α β : Type} (e : String)
    (f : α → Except String β) :
    ((Except.error e : Except String α) >>= f) = Except.error e := rfl

theorem except_pure_eq_ok {α : Type} (a : α) :
    (pure a : Except String α) = Except.ok a := rfl

theorem requiredFields_mc :
    requiredFieldsTemplate (some ["materials_commons"])
      = materialsCommonsRequirements := rfl

theorem requiredFields_mdf :
    requiredFieldsTemplate (some ["materials_data_facility"])
      = materialsDataFacilityRequirements := rfl

/-- The record of the spec's worked example for Materials Commons
validation failure inside `source`: `source` is present but empty, so the
recursive call fails for the nested key `name`. -/
def c1record : Record :=
  [("source", Value.vdict []), ("description", Value.vstr "d")]

/-- C1: the claim states that a validation error renders nested missing
keys in dotted path notation (`source.name`).  The code does not: line 75
computes `prefix = '%s.' if keypath else ''`, a literal format string
that is never interpolated with `keypath`, so the Materials Commons
projector applied to a record whose `source` lacks `name` raises
`Missing input fields.  Expected %s.name.` — the literal `%s.` instead of
the accumulated dotted path `source.`.  This theorem evaluates the
embedded projector at that failing input. -/
theorem c1_nested_missing_key_renders_percent_s :
    mcProject c1record
      = Except.error "Missing input fields.  Expected %s.name." := by
  have h : validateInputs (Value.vdict c1record)
      (requiredFieldsTemplate (some ["materials_commons"])) none
      = Except.error "Missing input fields.  Expected %s.name." := by
    rw [requiredFields_mc]
    simp [validateInputs, validateEach, materialsCommonsRequirements,
      c1record, hasKeyV, missingMsg, msgPfx, extendPath, pyJoin,
      List.lookup, Except.bind]
  simp [mcProject, h, except_error_bind]

/-- The Citation of the spec's formatting example. -/
def c5citation : Record :=
  [("authors", Value.vlist
     [Value.vdict [("family_name", Value.vstr "Doe"),
                   ("given_name", Value.vstr "J")]]),
   ("year", Value.vstr "2001"), ("title", Value.vstr "X"),
   ("journal", Value.vstr "Y"), ("volume", Value.vstr "5"),
   ("issue", Value.vstr "2"), ("page_location", Value.vstr "10-20")]

/-- C5: formatting the example Citation `{authors:[{family_name:"Doe",
given_name:"J"}], year:"2001", title:"X", journal:"Y", volume:"5",
issue:"2", page_location:"10-20"}` succeeds and yields a string that
starts with `"Doe J. 2001. X. Y. 5(2):10-20."` (in fact it is exactly
that string after trailing-whitespace trimming). -/
theorem c5_citation_format_example :
    ∃ s, citationToString c5citation = Except.ok s ∧
      ∃ r, s = "Doe J. 2001. X. Y. 5(2):10-20." ++ r :=
  ⟨"Doe J. 2001. X. Y. 5(2):10-20.", rfl, "", rfl⟩

/-- A Common Record citation with one author, as the caller supplies it. -/
def c2citation : Value :=
  Value.vdict [("authors", Value.vlist
    [Value.vdict [("family_name", Value.vstr "Doe"),
                  ("given_name", Value.vstr "J")]])]

/-- The same citation after `CITPayload.metapayload` ran: the author dict
has acquired the keys `given` and `family`. -/
def c2citationAfter : Value :=
  Value.vdict [("authors", Value.vlist
    [Value.vdict [("family_name", Value.vstr "Doe"),
                  ("given_name", Value.vstr "J"),
                  ("given", Value.vstr "J"),
                  ("family", Value.vstr "Doe")]])]

/-- C2: the claim states projection consumes the record read-only.  The
code does not: `CITPayload._add_citations` (lines 412-418) writes
`author['given']` and `author['family]'` into the very author dicts held
by the caller's record (the dict comprehension on line 407 copies
references).  Evaluated at a record whose citation list holds one
author, the citation's post-projection state differs from its initial
state. -/
theorem c2_citation_assembly_mutates_record :
    (∃ refs, citAddCitations [c2citation]
        = Except.ok (refs, [c2citationAfter]))
    ∧ c2citationAfter ≠ c2citation := by
  constructor
  · exact ⟨[⟨[], [[("given", Value.vstr "J"),
                   ("family", Value.vstr "Doe")]]⟩], rfl⟩
  · simp [c2citationAfter, c2citation]

/-- A `None` citation element: the field-filtering dict comprehension
(line 407) iterates it — `for key in None` raises `TypeError` — and
`_add_citations` has no handler. -/
def c9badCitation : Value := Value.vnone

/-- A citation element that converts without error. -/
def c9goodCitation : Value :=
  Value.vdict [("title", Value.vstr "ok")]

/-- C9 counterexample: the claim states an error raised while converting
a single citation element is isolated to that element and the remaining
elements are still produced.  It is not: `_add_citations` has no
`try`/`except`, so a batch holding a `None` citation — which raises
`TypeError` the moment the field-filtering comprehension iterates it —
fails entirely, although the other element converts on its own. -/
theorem c9_counterexample_citation_error_aborts_batch :
    citAddCitations [c9badCitation, c9goodCitation]
      = Except.error "TypeError"
    ∧ ∃ out, citAddCitations [c9goodCitation] = Except.ok out :=
  ⟨rfl, ⟨([⟨[("title", Value.vstr "ok")], []⟩], [c9goodCitation]), rfl⟩⟩

/-- C9 (amended): per-element isolation holds for licenses — the loop of
`_add_licenses` wraps each conversion in `try`/`except`, so the result is
exactly the successfully converting elements in order — but not for
citations: an error raised while converting any citation element aborts
the whole citation assembly. -/
theorem c9_license_errors_isolated_citation_errors_abort :
    (∀ ls : List Value, citAddLicenses ls
        = ls.filterMap (fun l => (toCitrineLicense l).toOption))
    ∧ (∀ cs : List Value,
        (∃ c ∈ cs, ∃ e, processCitation c = Except.error e) →
        ∃ e, citAddCitations cs = Except.error e) := by
  constructor
  · intro ls
    induction ls with
    | nil => rfl
    | cons l rest ih =>
        cases h : toCitrineLicense l with
        | ok cl => simp [citAddLicenses, List.filterMap, h, ih,
            Except.toOption]
        | error e => simp [citAddLicenses, List.filterMap, h, ih,
            Except.toOption]
  · intro cs
    induction cs with
    | nil => rintro ⟨c, hc, _⟩; cases hc
    | cons c0 rest ih =>
        rintro ⟨c, hc, e, he⟩
        rcases List.mem_cons.mp hc with h0 | hrest
        · subst h0
          exact ⟨e, by simp [citAddCitations, he, except_error_bind]⟩
        · rcases ih ⟨c, hrest, e, he⟩ with ⟨e1, h1⟩
          cases hp : processCitation c0 with
          | error e0 =>
              exact ⟨e0, by simp [citAddCitations, hp, except_error_bind]⟩
          | ok pr =>
              exact ⟨e1, by simp [citAddCitations, hp, h1, except_ok_bind,
                except_error_bind]⟩

/-- Witness for the amended C9 theorem: its citation half applied to the
concrete singleton batch holding the bad citation. -/
theorem c9_isolation_witness :
    ∃ e, citAddCitations [c9badCitation] = Except.error e :=
  c9_license_errors_isolated_citation_errors_abort.2 [c9badCitation]
    ⟨c9badCitation, by simp, "TypeError", rfl⟩

/-- The person P of the spec's MDF example. -/
def c4person : Value :=
  Value.vdict [("given_name", Value.vstr "A"),
               ("family_name", Value.vstr "B"),
               ("email", Value.vstr "a@b.com")]

/-- The record of the spec's MDF example. -/
def c4record : Record :=
  [("title", Value.vstr "T"),
   ("source", Value.vdict [("name", Value.vstr "S")]),
   ("data_contacts", Value.vlist [c4person]),
   ("data_contributors", Value.vlist [c4person]),
   ("links", Value.vdict [("landing_page", Value.vstr "http://x")])]

/-- The `mdf` block the projector produces for `c4record`. -/
def c4expectedMdf : Record :=
  [("title", Value.vstr "T"),
   ("acl", Value.vlist [Value.vstr "public"]),
   ("source_name", Value.vstr "S"),
   ("links", Value.vdict [("landing_page", Value.vstr "http://x")]),
   ("data_contact", Value.vlist [c4person]),
   ("data_contributor", Value.vlist [c4person])]


theorem c4_source_ok : validateInputs (Value.vdict [("name", Value.vstr "S")])
    [("name", ReqVal.rstr "string")] (some (extendPath none "source"))
    = Except.ok () := by
  simp [validateInputs, validateEach, hasKeyV, List.lookup]

theorem c4_links_ok : validateInputs
    (Value.vdict [("landing_page", Value.vstr "http://x")])
    [("landing_page", ReqVal.rstr "uri (string)")]
    (some (extendPath none "links")) = Except.ok () := by
  simp [validateInputs, validateEach, hasKeyV, List.lookup]

theorem c4_validate : validateInputs (Value.vdict c4record)
    (requiredFieldsTemplate (some ["materials_data_facility"])) none
    = Except.ok () := by
  rw [requiredFields_mdf]
  have hall : (materialsDataFacilityRequirements.all
      (fun kv => hasKeyV c4record kv.1)) = true := by
    simp [materialsDataFacilityRequirements, c4record, hasKeyV, List.lookup]
  rw [validateInputs_all_true c4record materialsDataFacilityRequirements
    none hall]
  simp only [materialsDataFacilityRequirements]
  rw [validateEach_rstr]
  rw [validateEach_rdict_ok c4record "source" [("name", ReqVal.rstr "string")]
    _ none [("name", Value.vstr "S")]
    (show List.lookup "source" c4record
      = some (Value.vdict [("name", Value.vstr "S")]) from rfl) c4_source_ok]
  rw [validateEach_rlist]
  rw [validateEach_rlist]
  rw [validateEach_rdict_ok c4record "links"
    [("landing_page", ReqVal.rstr "uri (string)")] _ none
    [("landing_page", Value.vstr "http://x")]
    (show List.lookup "links" c4record
      = some (Value.vdict [("landing_page", Value.vstr "http://x")]) from rfl)
    c4_links_ok]
  exact validateEach_nil c4record none

/-- C4: for the example record `{title:"T", source:{name:"S"},
data_contacts:[P], data_contributors:[P], links:{landing_page:"http://x"}}`
with P = `{given_name:"A", family_name:"B", email:"a@b.com"}`, the
Materials Data Facility projector succeeds, and its `mdf` block binds
`source_name` to `"S"`, `title` to `"T"` and `acl` to `["public"]`. -/
theorem c4_mdf_example_record_projects :
    mdfProject c4record
      = Except.ok (Value.vdict [("mdf", Value.vdict c4expectedMdf),
                                ("dc", Value.vdict [])])
    ∧ List.lookup "source_name" c4expectedMdf = some (Value.vstr "S")
    ∧ List.lookup "title" c4expectedMdf = some (Value.vstr "T")
    ∧ List.lookup "acl" c4expectedMdf
        = some (Value.vlist [Value.vstr "public"]) := by
  refine ⟨?_, rfl, rfl, rfl⟩
  simp only [mdfProject]
  rw [c4_validate, except_ok_bind]
  rfl

/-- Removes the entries with the listed keys from a record; used to state
that the formatter's output does not depend on those fields. -/
def eraseKeys (ks : List String) : Record → Record
  | [] => []
  | p :: rest =>
      if ks.contains p.1 then eraseKeys ks rest
      else p :: eraseKeys ks rest

/-- The book-only citation fields named by the spec: edition,
publication_location, publisher, extent, notes. -/
def bookOnlyFields : List String :=
  ["edition", "publication_location", "publisher", "extent", "notes"]

/-- The journal-only citation fields named by the spec: volume, issue,
page_location. -/
def journalOnlyFields : List String :=
  ["volume", "issue", "page_location"]

/-- The fields whose emission is conditional on `volume` being present. -/
def issuePageFields : List String := ["issue", "page_location"]

theorem lookup_cons_key {b : Type} (k : String) (v : b)
    (l : List (String × b)) : List.lookup k ((k, v) :: l) = some v := by
  simp [List.lookup]

theorem lookup_cons_ne {b : Type} (k pk : String) (v : b)
    (l : List (String × b)) (h : (k == pk) = false) :
    List.lookup k ((pk, v) :: l) = List.lookup k l := by
  simp [List.lookup, h]

theorem eraseKeys_cons_drop (ks : List String) (p : String × Value)
    (rest : Record) (hc : ks.contains p.1 = true) :
    eraseKeys ks (p :: rest) = eraseKeys ks rest := by
  rw [eraseKeys, hc]
  simp

theorem eraseKeys_cons_keep (ks : List String) (p : String × Value)
    (rest : Record) (hc : ks.contains p.1 = false) :
    eraseKeys ks (p :: rest) = p :: eraseKeys ks rest := by
  rw [eraseKeys, hc]
  simp

theorem lookup_eraseKeys (ks : List String) (k : String)
    (h : ks.contains k = false) :
    ∀ c : Record, List.lookup k (eraseKeys ks c) = List.lookup k c := by
  intro c
  induction c with
  | nil => rfl
  | cons p rest ih =>
      obtain ⟨pk, pv⟩ := p
      rcases hc : ks.contains pk with _ | _
      · rw [eraseKeys_cons_keep ks (pk, pv) rest hc]
        rcases hbe : (k == pk) with _ | _
        · rw [lookup_cons_ne k pk pv (eraseKeys ks rest) hbe,
            lookup_cons_ne k pk pv rest hbe]
          exact ih
        · have hkeq : k = pk := eq_of_beq hbe
          subst hkeq
          rw [lookup_cons_key k pv (eraseKeys ks rest),
            lookup_cons_key k pv rest]
      · rw [eraseKeys_cons_drop ks (pk, pv) rest hc]
        have hbe : (k == pk) = false := by
          rcases hbe : (k == pk) with _ | _
          · rfl
          · have hkeq : k = pk := eq_of_beq hbe
            subst hkeq
            rw [hc] at h
            exact absurd h (by simp)
        rw [lookup_cons_ne k pk pv rest hbe]
        exact ih

theorem hasKey_eraseKeys (ks : List String) (k : String)
    (h : ks.contains k = false) (c : Record) :
    hasKeyV (eraseKeys ks c) k = hasKeyV c k := by
  unfold hasKeyV
  rw [lookup_eraseKeys ks k h c]

theorem getStrE_eraseKeys (ks : List String) (k : String)
    (h : ks.contains k = false) (c : Record) :
    getStrE (eraseKeys ks c) k = getStrE c k := by
  unfold getStrE
  rw [lookup_eraseKeys ks k h c]

theorem headerPart_eraseKeys (ks : List String)
    (h1 : ks.contains "authors" = false) (h2 : ks.contains "year" = false)
    (h3 : ks.contains "title" = false) (c : Record) :
    headerPart (eraseKeys ks c) = headerPart c := by
  unfold headerPart
  rw [hasKey_eraseKeys ks "authors" h1 c, hasKey_eraseKeys ks "year" h2 c,
    hasKey_eraseKeys ks "title" h3 c, lookup_eraseKeys ks "authors" h1 c,
    lookup_eraseKeys ks "year" h2 c, getStrE_eraseKeys ks "title" h3 c]

theorem journalPart_eraseKeys (ks : List String)
    (h1 : ks.contains "journal" = false)
    (h2 : ks.contains "volume" = false) (h3 : ks.contains "issue" = false)
    (h4 : ks.contains "page_location" = false) (c : Record) :
    journalPart (eraseKeys ks c) = journalPart c := by
  unfold journalPart
  rw [getStrE_eraseKeys ks "journal" h1 c, hasKey_eraseKeys ks "volume" h2 c,
    getStrE_eraseKeys ks "volume" h2 c, hasKey_eraseKeys ks "issue" h3 c,
    getStrE_eraseKeys ks "issue" h3 c,
    hasKey_eraseKeys ks "page_location" h4 c,
    getStrE_eraseKeys ks "page_location" h4 c]

theorem bookPart_eraseKeys (ks : List String)
    (h1 : ks.contains "edition" = false)
    (h2 : ks.contains "publication_location" = false)
    (h3 : ks.contains "publisher" = false)
    (h4 : ks.contains "extent" = false) (h5 : ks.contains "notes" = false)
    (c : Record) :
    bookPart (eraseKeys ks c) = bookPart c := by
  unfold bookPart
  rw [hasKey_eraseKeys ks "edition" h1 c, getStrE_eraseKeys ks "edition" h1 c,
    hasKey_eraseKeys ks "publication_location" h2 c,
    getStrE_eraseKeys ks "publication_location" h2 c,
    hasKey_eraseKeys ks "publisher" h3 c,
    getStrE_eraseKeys ks "publisher" h3 c,
    hasKey_eraseKeys ks "extent" h4 c, getStrE_eraseKeys ks "extent" h4 c,
    hasKey_eraseKeys ks "notes" h5 c, getStrE_eraseKeys ks "notes" h5 c]

/-- C6: a citation with a `journal` field is formatted without consulting
any book-only field (edition, publication_location, publisher, extent,
notes) — erasing them does not change the output — and a citation
without a `journal` field is formatted without consulting any
journal-only field (volume, issue, page_location).  (Containment of the
raw field values is stated as output-independence: the formatter never
emits those fields on the respective path.) -/
theorem c6_journal_book_shape_separation (c : Record) :
    (hasKeyV c "journal" = true →
      citationToString (eraseKeys bookOnlyFields c) = citationToString c)
    ∧ (hasKeyV c "journal" = false →
      citationToString (eraseKeys journalOnlyFields c)
        = citationToString c) := by
  constructor
  · intro hj
    unfold citationToString
    rw [headerPart_eraseKeys bookOnlyFields rfl rfl rfl c,
      hasKey_eraseKeys bookOnlyFields "journal" rfl c, hj,
      journalPart_eraseKeys bookOnlyFields rfl rfl rfl rfl c]
    simp
  · intro hj
    unfold citationToString
    rw [headerPart_eraseKeys journalOnlyFields rfl rfl rfl c,
      hasKey_eraseKeys journalOnlyFields "journal" rfl c, hj,
      bookPart_eraseKeys journalOnlyFields rfl rfl rfl rfl rfl c]
    simp

/-- A journal-and-book citation: the journal path must win, so the
publisher is irrelevant. -/
def c6example : Record :=
  [("journal", Value.vstr "J"), ("publisher", Value.vstr "P")]

/-- Witness for C6 at a concrete citation carrying both a `journal` and a
`publisher`. -/
theorem c6_separation_witness :
    citationToString (eraseKeys bookOnlyFields c6example)
      = citationToString c6example :=
  (c6_journal_book_shape_separation c6example).1 rfl

theorem journalPart_eraseKeys_noVolume (ks : List String) (c : Record)
    (h1 : ks.contains "journal" = false)
    (h2 : ks.contains "volume" = false)
    (hv : hasKeyV c "volume" = false) :
    journalPart (eraseKeys ks c) = journalPart c := by
  unfold journalPart
  rw [getStrE_eraseKeys ks "journal" h1 c,
    hasKey_eraseKeys ks "volume" h2 c, hv]
  simp

/-- C10: for a citation that contains `journal` but not `volume`, the
formatter consults neither `issue` nor `page_location` even when they are
present — erasing both fields leaves the output unchanged — because
their emission (lines 138-141) sits inside the `if 'volume' in citation`
block. -/
theorem c10_issue_page_need_volume (c : Record)
    (hj : hasKeyV c "journal" = true)
    (hv : hasKeyV c "volume" = false) :
    citationToString (eraseKeys issuePageFields c) = citationToString c := by
  unfold citationToString
  rw [headerPart_eraseKeys issuePageFields rfl rfl rfl c,
    hasKey_eraseKeys issuePageFields "journal" rfl c, hj,
    journalPart_eraseKeys_noVolume issuePageFields c rfl rfl hv]
  simp

/-- A journal citation without a volume but with an issue and a
page_location. -/
def c10example : Record :=
  [("journal", Value.vstr "J"), ("issue", Value.vstr "7"),
   ("page_location", Value.vstr "1-2")]

/-- Witness for C10 at a concrete volume-less journal citation carrying
both conditional fields. -/
theorem c10_issue_page_witness :
    citationToString (eraseKeys issuePageFields c10example)
      = citationToString c10example :=
  c10_issue_page_need_volume c10example rfl rfl

/-- Python-style `or` on optionals: the first operand wins when present.
Used to state the first-writer-wins semantics of the requirement merge. -/
def oorO {b : Type} (a c : Option b) : Option b :=
  match a with
  | some v => some v
  | none => c

/-- The per-key union semantics the spec describes for
`requirements_for`: the value for a key comes from the first requested
service whose requirement dict carries that key. -/
def firstWriterLookup : List String → String → Option ReqVal
  | [], _ => none
  | s :: rest, k =>
      oorO (List.lookup k (serviceRequirements s)) (firstWriterLookup rest k)

theorem oorO_none_right {b : Type} (a : Option b) : oorO a none = a := by
  cases a <;> rfl

theorem oorO_assoc {b : Type} (a c d : Option b) :
    oorO (oorO a c) d = oorO a (oorO c d) := by
  cases a <;> rfl

theorem lookup_append_oorO {b : Type} (k : String)
    (l1 l2 : List (String × b)) :
    List.lookup k (l1 ++ l2) = oorO (List.lookup k l1) (List.lookup k l2) := by
  induction l1 with
  | nil => rfl
  | cons p rest ih =>
      obtain ⟨pk, pv⟩ := p
      rcases hbe : (k == pk) with _ | _
      · rw [List.cons_append, lookup_cons_ne k pk pv (rest ++ l2) hbe,
          lookup_cons_ne k pk pv rest hbe, ih]
      · have hkeq : k = pk := eq_of_beq hbe
        subst hkeq
        rw [List.cons_append, lookup_cons_key k pv (rest ++ l2),
          lookup_cons_key k pv rest]
        rfl

theorem lookup_cons_oorO {b : Type} (k kk : String) (v : b)
    (rest : List (String × b)) :
    List.lookup k ((kk, v) :: rest)
      = oorO (List.lookup k [(kk, v)]) (List.lookup k rest) := by
  rcases hbe : (k == kk) with _ | _
  · rw [lookup_cons_ne k kk v rest hbe, lookup_cons_ne k kk v [] hbe]
    rfl
  · have hkeq : k = kk := eq_of_beq hbe
    subst hkeq
    rw [lookup_cons_key k v rest, lookup_cons_key k v []]
    rfl

theorem lookup_foldl_addKV (kvs : List (String × ReqVal)) :
    ∀ (acc : List (String × ReqVal)) (k : String),
      List.lookup k (kvs.foldl addKV acc)
        = oorO (List.lookup k acc) (List.lookup k kvs) := by
  induction kvs with
  | nil =>
      intro acc k
      rw [List.foldl_nil]
      exact (oorO_none_right (List.lookup k acc)).symm
  | cons kv rest ih =>
      intro acc k
      obtain ⟨kk, kvv⟩ := kv
      rw [List.foldl_cons, ih (addKV acc (kk, kvv)) k,
        lookup_cons_oorO k kk kvv rest]
      unfold addKV
      rcases hacc : List.lookup kk acc with _ | v0
      · rw [if_neg (by simp)]
        rw [lookup_append_oorO k acc [(kk, kvv)], oorO_assoc]
      · rw [if_pos (by simp)]
        rcases hbe : (k == kk) with _ | _
        · rw [show List.lookup k [(kk, kvv)]
            = (none : Option ReqVal) from by
              rw [lookup_cons_ne k kk kvv [] hbe]; rfl]
          rfl
        · have hkeq : k = kk := eq_of_beq hbe
          subst hkeq
          rw [lookup_cons_key k kvv [], hacc]
          rfl

theorem lookup_foldl_addService (svcs : List String) :
    ∀ (acc : List (String × ReqVal)) (k : String),
      List.lookup k (svcs.foldl addService acc)
        = oorO (List.lookup k acc) (firstWriterLookup svcs k) := by
  induction svcs with
  | nil =>
      intro acc k
      rw [List.foldl_nil, firstWriterLookup]
      exact (oorO_none_right (List.lookup k acc)).symm
  | cons s rest ih =>
      intro acc k
      rw [List.foldl_cons, ih (addService acc s) k, firstWriterLookup]
      unfold addService
      rw [lookup_foldl_addKV (serviceRequirements s) acc k, oorO_assoc]

/-- C7: for every requested service list, the required-fields template is
the key-by-key union of the requested known services' requirement dicts
with first writer wins per top-level key — `List.lookup` into the merge
result equals the first-writer lookup over the selected services, with no
deep merge of nested subtrees — and when the request names no recognized
service (in particular `some []`, or `none` which selects all by
definition) the result is the union over all three services. -/
theorem c7_required_fields_first_writer_union
    (services : Option (List String)) (k : String) :
    List.lookup k (requiredFieldsTemplate services)
      = firstWriterLookup (selectServices services) k
    ∧ ((∀ s, s ∈ services.getD [] → availableServices.contains s = false) →
        requiredFieldsTemplate services
          = combinedRequirements availableServices) := by
  constructor
  · unfold requiredFieldsTemplate combinedRequirements
    rw [lookup_foldl_addService (selectServices services) [] k]
    rfl
  · intro hno
    cases services with
    | none => rfl
    | some ss =>
        have hfil : ss.filter (fun s => availableServices.contains s)
            = [] := by
          rw [List.filter_eq_nil_iff]
          intro a ha
          rw [hno a (by simpa using ha)]
          simp
        simp only [requiredFieldsTemplate, selectServices]
        rw [hfil]
        simp

/-- Witness for C7: a request naming only an unrecognized service falls
back to the all-services union, and the lookup characterization holds
there. -/
theorem c7_union_witness :
    List.lookup "title" (requiredFieldsTemplate (some ["bogus"]))
      = firstWriterLookup (selectServices (some ["bogus"])) "title"
    ∧ requiredFieldsTemplate (some ["bogus"])
      = combinedRequirements availableServices :=
  ⟨(c7_required_fields_first_writer_union (some ["bogus"]) "title").1,
   (c7_required_fields_first_writer_union (some ["bogus"]) "title").2
     (by decide)⟩

theorem validateEach_congr (a b : Record) :
    ∀ (entries : List (String × ReqVal)) (kp : Option String),
      (∀ k sub, (k, ReqVal.rdict sub) ∈ entries →
        List.lookup k a = List.lookup k b) →
      validateEach a entries kp = validateEach b entries kp := by
  intro entries
  induction entries with
  | nil =>
      intro kp _
      rw [validateEach_nil, validateEach_nil]
  | cons e rest ih =>
      intro kp hdict
      obtain ⟨k, rv⟩ := e
      cases rv with
      | rstr s =>
          rw [validateEach_rstr, validateEach_rstr]
          exact ih kp
            (fun k2 sub2 hm => hdict k2 sub2 (List.mem_cons_of_mem _ hm))
      | rlist l =>
          rw [validateEach_rlist, validateEach_rlist]
          exact ih kp
            (fun k2 sub2 hm => hdict k2 sub2 (List.mem_cons_of_mem _ hm))
      | rdict sub =>
          have hl : List.lookup k a = List.lookup k b :=
            hdict k sub (List.mem_cons_self _ _)
          rw [validateEach, validateEach, hl,
            ih kp (fun k2 sub2 hm => hdict k2 sub2
              (List.mem_cons_of_mem _ hm))]

/-- C8: the validator consults a record only through (i) which keys are
present and (ii) the values stored at keys whose requirement is a nested
dict.  Two records with the same key set that agree on every dict-typed
requirement key validate identically, however much their values at
list-typed (or leaf-typed) requirement keys differ — so a list-typed
requirement such as `data_contacts: [{...}]` is checked for presence
only, and its elements are never validated. -/
theorem c8_list_requirements_presence_only
    (entries : List (String × ReqVal)) (a b : Record) (kp : Option String)
    (hkeys : ∀ k, hasKeyV a k = hasKeyV b k)
    (hdict : ∀ k sub, (k, ReqVal.rdict sub) ∈ entries →
      List.lookup k a = List.lookup k b) :
    validateInputs (Value.vdict a) entries kp
      = validateInputs (Value.vdict b) entries kp := by
  have hfun : (fun kv : String × ReqVal => hasKeyV a kv.1)
      = (fun kv => hasKeyV b kv.1) :=
    funext (fun kv => hkeys kv.1)
  rcases hb : entries.all (fun kv => hasKeyV b kv.1) with _ | _
  · rw [validateInputs_all_false a entries kp (by rw [hfun]; exact hb),
      validateInputs_all_false b entries kp hb]
  · rw [validateInputs_all_true a entries kp (by rw [hfun]; exact hb),
      validateInputs_all_true b entries kp hb]
    exact validateEach_congr a b entries kp hdict

/-- A requirement schema with a single list-typed entry, as the
Materials Data Facility schema uses for `data_contacts`. -/
def c8schema : List (String × ReqVal) :=
  [("data_contacts", ReqVal.rlist
    [ReqVal.rdict [("given_name", ReqVal.rstr "string")]])]

/-- A record whose `data_contacts` is not even a list. -/
def c8recordA : Record := [("data_contacts", Value.vstr "not-a-list")]

/-- A record whose `data_contacts` is an empty list (no valid element). -/
def c8recordB : Record := [("data_contacts", Value.vlist [])]

/-- Witness for C8: under the list-typed `data_contacts` requirement, a
record holding a non-list and a record holding an empty list validate
identically. -/
theorem c8_presence_only_witness :
    validateInputs (Value.vdict c8recordA) c8schema none
      = validateInputs (Value.vdict c8recordB) c8schema none :=
  c8_list_requirements_presence_only c8schema c8recordA c8recordB none
    (fun k => by
      rcases h : (k == "data_contacts") with _ | _ <;>
        simp [c8recordA, c8recordB, hasKeyV, List.lookup, h])
    (fun k sub hm => by simp [c8schema] at hm)

theorem lookup_filterMap_init_notmem (kwargs : Record) (k : String) :
    ∀ ks : List String, k ∉ ks →
      List.lookup k (ks.filterMap
        (fun key => (List.lookup key kwargs).map (fun v => (key, v))))
        = none := by
  intro ks
  induction ks with
  | nil => intro _; rfl
  | cons a rest ih =>
      intro hnm
      have hka : k ≠ a := fun he => hnm (he ▸ List.mem_cons_self a rest)
      have hkr : k ∉ rest := fun hm => hnm (List.mem_cons_of_mem a hm)
      rcases hfa : List.lookup a kwargs with _ | v
      · rw [List.filterMap_cons, hfa]
        exact ih hkr
      · rw [List.filterMap_cons, hfa]
        simp only [Option.map_some']
        rw [lookup_cons_ne k a (a, v).2 _ (by
          rcases hbe : (k == a) with _ | _
          · rfl
          · exact absurd (eq_of_beq hbe) hka)]
        exact ih hkr

theorem lookup_filterMap_init (kwargs : Record) (k : String) :
    ∀ ks : List String, ks.Nodup → k ∈ ks →
      List.lookup k (ks.filterMap
        (fun key => (List.lookup key kwargs).map (fun v => (key, v))))
        = List.lookup k kwargs := by
  intro ks
  induction ks with
  | nil => intro _ hm; cases hm
  | cons a rest ih =>
      intro hnd hm
      have hnd2 := List.nodup_cons.mp hnd
      by_cases hk : k = a
      · subst hk
        rcases hfa : List.lookup k kwargs with _ | v
        · rw [List.filterMap_cons, hfa]
          exact lookup_filterMap_init_notmem kwargs k rest hnd2.1
        · rw [List.filterMap_cons, hfa]
          simp only [Option.map_some']
          exact lookup_cons_key k v _
      · have hmr : k ∈ rest := by
          rcases List.mem_cons.mp hm with he | hr
          · exact absurd he hk
          · exact hr
        rcases hfa : List.lookup a kwargs with _ | v
        · rw [List.filterMap_cons, hfa]
          exact ih hnd2.2 hmr
        · rw [List.filterMap_cons, hfa]
          simp only [Option.map_some']
          rw [lookup_cons_ne k a v _ (by
            rcases hbe : (k == a) with _ | _
            · rfl
            · exact absurd (eq_of_beq hbe) hk)]
          exact ih hnd2.2 hmr

theorem lookup_publishableInit (kwargs : Record) (k : String)
    (hmem : k ∈ allFieldsKeys) :
    List.lookup k (publishableInit kwargs) = List.lookup k kwargs :=
  lookup_filterMap_init kwargs k allFieldsKeys (by decide) hmem

theorem validateEach_rdict_raw (arec : Record) (k : String)
    (sub rest : List (String × ReqVal)) (kp : Option String) :
    validateEach arec ((k, ReqVal.rdict sub) :: rest) kp
      = (match List.lookup k arec with
         | some (Value.vdict subA) => validateInputs (Value.vdict subA) sub
             (some (extendPath kp k))
         | some _ => Except.error "AttributeError"
         | none => Except.error "KeyError").bind
          (fun _ => validateEach arec rest kp) := by
  rw [validateEach]

/-- C3: every record accepted by the Materials Commons projector — i.e.
whose validation against the Materials Commons requirements succeeds, so
`source` is a dict containing `name`, and `description` is present —
projects to a mapping holding exactly the two keys `name` (bound to
`source.name`) and `description`, whatever extra fields the record
carries. -/
theorem c3_mc_payload_exactly_two_keys (kwargs : Record)
    (h : validateInputs (Value.vdict kwargs)
      (requiredFieldsTemplate (some ["materials_commons"])) none
      = Except.ok ()) :
    ∃ src nameVal descVal,
      List.lookup "source" kwargs = some (Value.vdict src) ∧
      List.lookup "name" src = some nameVal ∧
      List.lookup "description" kwargs = some descVal ∧
      mcProject kwargs
        = Except.ok [("name", nameVal), ("description", descVal)] := by
  have h0 := h
  rw [requiredFields_mc] at h
  rcases hb : materialsCommonsRequirements.all
      (fun kv => hasKeyV kwargs kv.1) with _ | _
  · rw [validateInputs_all_false kwargs _ none hb] at h
    simp at h
  · rw [validateInputs_all_true kwargs _ none hb] at h
    have hbs : hasKeyV kwargs "source" = true
        ∧ hasKeyV kwargs "description" = true := by
      simpa [materialsCommonsRequirements] using hb
    obtain ⟨descVal, hd⟩ := Option.isSome_iff_exists.mp hbs.2
    rcases hs : List.lookup "source" kwargs with _ | v
    · exact absurd hbs.1 (by simp [hasKeyV, hs])
    · cases v with
      | vdict src =>
          rw [show materialsCommonsRequirements
            = ("source", ReqVal.rdict [("name", ReqVal.rstr "string")]) ::
              [("description", ReqVal.rstr "string")] from rfl] at h
          rw [validateEach_rdict kwargs "source"
            [("name", ReqVal.rstr "string")]
            [("description", ReqVal.rstr "string")] none src hs] at h
          rcases hsub : validateInputs (Value.vdict src)
              [("name", ReqVal.rstr "string")]
              (some (extendPath none "source")) with e | u
          · rw [hsub, exceptBind_error] at h
            simp at h
          · have hn : hasKeyV src "name" = true := by
              rcases hnb : [("name", ReqVal.rstr "string")].all
                  (fun kv => hasKeyV src kv.1) with _ | _
              · rw [validateInputs_all_false src _ _ hnb] at hsub
                simp at hsub
              · simpa using hnb
            obtain ⟨nameVal, hnv⟩ := Option.isSome_iff_exists.mp hn
            refine ⟨src, nameVal, descVal, rfl, hnv, hd, ?_⟩
            simp only [mcProject]
            rw [h0, except_ok_bind,
              lookup_publishableInit kwargs "source" (by decide), hs]
            show (match List.lookup "name" src with
              | some nv =>
                  match List.lookup "description" (publishableInit kwargs)
                    with
                  | some dv =>
                      Except.ok [("name", nv), ("description", dv)]
                  | none => Except.error "KeyError"
              | none => Except.error "KeyError")
              = Except.ok [("name", nameVal), ("description", descVal)]
            rw [hnv,
              lookup_publishableInit kwargs "description" (by decide), hd]
      | vnone =>
          rw [show materialsCommonsRequirements
            = ("source", ReqVal.rdict [("name", ReqVal.rstr "string")]) ::
              [("description", ReqVal.rstr "string")] from rfl,
            validateEach_rdict_raw kwargs "source"
              [("name", ReqVal.rstr "string")]
              [("description", ReqVal.rstr "string")] none, hs] at h
          simp [Except.bind] at h
      | vstr s =>
          rw [show materialsCommonsRequirements
            = ("source", ReqVal.rdict [("name", ReqVal.rstr "string")]) ::
              [("description", ReqVal.rstr "string")] from rfl,
            validateEach_rdict_raw kwargs "source"
              [("name", ReqVal.rstr "string")]
              [("description", ReqVal.rstr "string")] none, hs] at h
          simp [Except.bind] at h
      | vint n =>
          rw [show materialsCommonsRequirements
            = ("source", ReqVal.rdict [("name", ReqVal.rstr "string")]) ::
              [("description", ReqVal.rstr "string")] from rfl,
            validateEach_rdict_raw kwargs "source"
              [("name", ReqVal.rstr "string")]
              [("description", ReqVal.rstr "string")] none, hs] at h
          simp [Except.bind] at h
      | vlist l =>
          rw [show materialsCommonsRequirements
            = ("source", ReqVal.rdict [("name", ReqVal.rstr "string")]) ::
              [("description", ReqVal.rstr "string")] from rfl,
            validateEach_rdict_raw kwargs "source"
              [("name", ReqVal.rstr "string")]
              [("description", ReqVal.rstr "string")] none, hs] at h
          simp [Except.bind] at h

/-- A Materials Commons record carrying an extra unrecognized field. -/
def c3example : Record :=
  [("source", Value.vdict [("name", Value.vstr "S")]),
   ("description", Value.vstr "D"), ("extra", Value.vstr "E")]

/-- Witness for C3 at a concrete record with an extra field: validation
succeeds and the projector emits exactly `name` and `description`. -/
theorem c3_two_keys_witness :
    ∃ src nameVal descVal,
      List.lookup "source" c3example = some (Value.vdict src) ∧
      List.lookup "name" src = some nameVal ∧
      List.lookup "description" c3example = some descVal ∧
      mcProject c3example
        = Except.ok [("name", nameVal), ("description", descVal)] :=
  c3_mc_payload_exactly_two_keys c3example (by
    rw [requiredFields_mc]
    rw [validateInputs_all_true c3example materialsCommonsRequirements none
      (by simp [materialsCommonsRequirements, c3example, hasKeyV,
        List.lookup])]
    rw [show materialsCommonsRequirements
      = ("source", ReqVal.rdict [("name", ReqVal.rstr "string")]) ::
        [("description", ReqVal.rstr "string")] from rfl]
    rw [validateEach_rdict_ok c3example "source"
      [("name", ReqVal.rstr "string")]
      [("description", ReqVal.rstr "string")] none
      [("name", Value.vstr "S")]
      (show List.lookup "source" c3example
        = some (Value.vdict [("name", Value.vstr "S")]) from rfl)
      (by simp [validateInputs, validateEach, hasKeyV, List.lookup])]
    rw [validateEach_rstr]
    exact validateEach_nil c3example none)
